import Mathlib

/-!
# Verification of the VideoCut rendering pipeline

Shallow embedding of the core of `src/components/video-creator.tsx` and
`src/components/video-editor.tsx`:

* the frame scheduler of `renderVideo`/`renderFrame` (exact rational
  arithmetic standing for the JavaScript number arithmetic),
* the requestAnimationFrame render loop and its termination check,
* the canvas compositing semantics of the six transitions over `ℝ`,
* the capture/stop/finalize behaviour of the two MediaRecorder based
  pipelines, and
* the boundary validations of the audio-remux and trim features.
-/

namespace VideoCut

/-! ## Scheduler arithmetic (video-creator.tsx, lines 87–161)

The JavaScript numbers of the scheduler are embedded as exact rationals.
`Math.floor` on a nonnegative number is `Nat.floor`; the JavaScript `%`
on nonnegative operands is `a - b * Math.floor (a / b)`. -/

/-- `const frameDuration = 1000 / fps` with `fps = 30` (line 89). -/
def frameDuration : ℚ := 1000 / 30

/-- `const imageDisplayTime = 3000` (line 90). -/
def imageDisplayTime : ℚ := 3000

/-- `const transitionTime = 500` (line 91). -/
def transitionTime : ℚ := 500

/-- `const cycleTime = imageDisplayTime + transitionTime` (line 139). -/
def cycleTimeQ : ℚ := imageDisplayTime + transitionTime

/-- `const totalFrames = images.length * ((imageDisplayTime + transitionTime) / frameDuration)`
(line 92). -/
def totalFramesQ (N : ℕ) : ℚ := N * ((imageDisplayTime + transitionTime) / frameDuration)

/-- `easeInOutCubic` (lines 277–281), on exact rationals. -/
def easeInOutCubicQ (t : ℚ) : ℚ :=
  if t < 1 / 2 then 4 * t * t * t else 1 - (-2 * t + 2) ^ 3 / 2

/-- `const currentTime = currentFrame * frameDuration` (line 138). -/
def currentTimeQ (k : ℕ) : ℚ := k * frameDuration

/-- `const currentCycle = Math.floor(currentTime / cycleTime)` (line 140). -/
def currentCycleQ (k : ℕ) : ℕ := ⌊currentTimeQ k / cycleTimeQ⌋₊

/-- `const timeInCycle = currentTime % cycleTime` (line 141); both operands are
nonnegative, so the JavaScript remainder is `a - b * Math.floor (a / b)`. -/
def timeInCycleQ (k : ℕ) : ℚ := currentTimeQ k - cycleTimeQ * currentCycleQ k

/-- The six values of the transition `<Select>` (lines 397–402). -/
inductive TransitionKind where
  | fade
  | slide
  | verticalSlide
  | zoom
  | rotate
  | flip
  deriving DecidableEq, Repr

/-- The observable outcome of one `renderFrame` tick: either the current image
drawn alone at full opacity (lines 154–157), or a transition composite of the
selected image pair at the progress value that the `switch` consumes
(lines 158–224). -/
inductive TickOutput (α : Type) where
  | display (img : α)
  | transition (kind : TransitionKind) (imgA imgB : α) (progress : ℚ)
  deriving DecidableEq, Repr

/-- One tick of `renderFrame` (lines 138–224), as the symbolic drawing decision
it makes: index selection (lines 140–148), the display/transition split
(line 154) and the eased progress computation (line 160). -/
def renderTick {α : Type} [Inhabited α] (kind : TransitionKind) (imgs : List α)
    (k : ℕ) : TickOutput α :=
  let currentImageIndex := currentCycleQ k % imgs.length
  let nextImageIndex := (currentCycleQ k + 1) % imgs.length
  if timeInCycleQ k < imageDisplayTime then
    TickOutput.display (imgs.getD currentImageIndex default)
  else
    TickOutput.transition kind (imgs.getD currentImageIndex default)
      (imgs.getD nextImageIndex default)
      (easeInOutCubicQ ((timeInCycleQ k - imageDisplayTime) / transitionTime))

/-- The Transition Engine entry point: it receives the linear time fraction of
the transition window and applies its cubic ease-in-out curve to it before the
per-kind drawing (line 160 together with the `switch` of lines 162–224). -/
def delegateTransition {α : Type} (kind : TransitionKind) (imgA imgB : α)
    (p : ℚ) : TickOutput α :=
  TickOutput.transition kind imgA imgB (easeInOutCubicQ p)

/-! ## The requestAnimationFrame render loop (lines 132–233)

`renderFrame` checks `currentFrame >= totalFrames`, stops the recorder and
returns if so; otherwise it draws the frame, increments `currentFrame` and
schedules itself again. The loop state records the frames drawn so far in
order, and whether `mediaRecorder.stop()` has been called. -/

structure RenderLoop where
  currentFrame : ℕ
  drawn : List ℕ
  stopped : Bool
  deriving DecidableEq, Repr

/-- Initial loop state: `currentFrame = 0` (line 87), nothing drawn, recorder
running (line 232). -/
def loopInit : RenderLoop := ⟨0, [], false⟩

/-- One invocation of `renderFrame` (lines 132–230): stop when
`currentFrame >= totalFrames`, else composite the frame and increment. A
stopped loop schedules nothing further. -/
def loopStep (total : ℕ) (s : RenderLoop) : RenderLoop :=
  if s.stopped then s
  else if total ≤ s.currentFrame then { s with stopped := true }
  else { currentFrame := s.currentFrame + 1, drawn := s.drawn ++ [s.currentFrame],
         stopped := false }

/-- The loop state after `n` invocations of `renderFrame`. -/
def loopRun (total n : ℕ) : RenderLoop := (loopStep total)^[n] loopInit

/-! ## Capture pipeline stop/finalize (video-editor.tsx lines 189–193,
video-creator.tsx lines 98–135)

`stopRecording` pauses playback, calls `MediaRecorder.stop()` and stops the
stream tracks. The MediaRecorder itself is a browser primitive; its contract
(modelled here, not in the repository) is that `stop()` on an inactive
recorder is a no-op, while on a recording one it makes the recorder inactive
and fires the `stop` event exactly once. The `onstop` handler of both
pipelines then assembles the accumulated chunk list into the final artifact
(`new Blob(chunks)`), which is the finalization step. -/

structure CaptureJob where
  recording : Bool
  chunks : List ℕ
  finalizeCount : ℕ
  artifact : Option (List ℕ)
  deriving DecidableEq, Repr

/-- `stopRecording` (video-editor.tsx line 189; the render pipeline's stop at
video-creator.tsx line 134 has the same shape): if the recorder is still
recording, it becomes inactive and its single `stop` event runs the `onstop`
finalization, which freezes the chunks accumulated so far into the artifact;
if it is already inactive the call does nothing. -/
def stopRecording (s : CaptureJob) : CaptureJob :=
  if s.recording then
    { recording := false, chunks := s.chunks,
      finalizeCount := s.finalizeCount + 1, artifact := some s.chunks }
  else s

/-! ## Recorder event delivery (error handling of the two pipelines)

When the encoder fails mid-session the platform fires an `error` event and
then a final `stop` event. The two pipelines install different handler sets:
`renderVideo` (video-creator.tsx lines 94–130) installs only `ondataavailable`
and `onstop`; `handleTrimConfirm` (video-editor.tsx lines 142–180) installs
`ondataavailable`, `onstop` and `onerror`, the latter two settling a promise
whose first settlement wins. -/

inductive RecEvent where
  | dataAvailable (c : ℕ)
  | errored
  | stopped
  deriving DecidableEq, Repr

structure RenderCapture where
  chunks : List ℕ
  delivered : Option (List ℕ)
  rejected : Bool
  deriving DecidableEq, Repr

/-- Event handling of the render pipeline's recorder (video-creator.tsx
lines 94–130): `ondataavailable` appends the chunk (line 95), `onstop`
assembles `new Blob(chunks)` and hands the artifact to `onVideoCreate`
(lines 98–123). No `onerror` handler is installed, so an encoder error event
is dropped; nothing ever sets `rejected`. -/
def renderHandle (s : RenderCapture) : RecEvent → RenderCapture
  | RecEvent.dataAvailable c => { s with chunks := s.chunks ++ [c] }
  | RecEvent.errored => s
  | RecEvent.stopped => { s with delivered := some s.chunks }

/-- The render capture state after a sequence of recorder events. -/
def renderRun (evs : List RecEvent) : RenderCapture :=
  evs.foldl renderHandle ⟨[], none, false⟩

/-- Outcome of the promise wrapped around the trim recording
(video-editor.tsx lines 149–224). -/
inductive TrimOutcome where
  | rejectedWith (msg : String)
  | resolvedWith (chunks : List ℕ)
  deriving DecidableEq, Repr

structure TrimRec where
  chunks : List ℕ
  settled : Option TrimOutcome
  videoSrc : Option (List ℕ)
  deriving DecidableEq, Repr

/-- Promise settlement: the first `resolve`/`reject` wins, later ones are
no-ops. -/
def promiseSettle (s : TrimRec) (o : TrimOutcome) : TrimRec :=
  match s.settled with
  | some _ => s
  | none => { s with settled := some o }

/-- Event handling of the trim pipeline's recorder (video-editor.tsx
lines 142–180): `ondataavailable` appends (line 142), `onerror` rejects the
promise (line 177), `onstop` assembles `new Blob(chunks)`, rebinds it as the
video element's source (lines 151–168) and resolves the promise. -/
def trimHandle (s : TrimRec) : RecEvent → TrimRec
  | RecEvent.dataAvailable c => { s with chunks := s.chunks ++ [c] }
  | RecEvent.errored => promiseSettle s (TrimOutcome.rejectedWith "MediaRecorder error")
  | RecEvent.stopped =>
      promiseSettle { s with videoSrc := some s.chunks } (TrimOutcome.resolvedWith s.chunks)

/-- The trim capture state after a sequence of recorder events. -/
def trimRun (evs : List RecEvent) : TrimRec :=
  evs.foldl trimHandle ⟨[], none, none⟩

/-! ## Audio remux boundary (video-creator.tsx lines 102–107 and 284–332) -/

/-- A selected file, abstracted to its declared media type. -/
structure MediaFile where
  type : String
  deriving DecidableEq, Repr

/-- The interactions `combineVideoWithAudio` has with the transcoding
runtime, in order: `ffmpeg.load()`, the two `writeFile` calls, the remux
`exec`, and `readFile` of the output. -/
inductive RuntimeOp where
  | loadRuntime
  | writeVideo
  | writeAudio
  | execRemux
  | readOutput
  deriving DecidableEq, Repr

/-- The audio branch of `mediaRecorder.onstop` (lines 102–108): if an audio
file is present, its declared type is validated (`audio.type.startsWith('audio/')`,
lines 104–106, embedded as prefix-of on the character data) before
`combineVideoWithAudio` (lines 284–332) is entered;
only the latter loads the runtime, writes the inputs, execs the remux and
reads the output. Returns the runtime operations performed together with the
outcome. -/
def finalizeAudio (audio : Option MediaFile) : List RuntimeOp × Except String Unit :=
  match audio with
  | none => ([], Except.ok ())
  | some a =>
      if ¬ List.isPrefixOf "audio/".data a.type.data then
        ([], Except.error "Invalid audio file format")
      else
        ([RuntimeOp.loadRuntime, RuntimeOp.writeVideo, RuntimeOp.writeAudio,
          RuntimeOp.execRemux, RuntimeOp.readOutput], Except.ok ())

/-! ## Trim window defaults and validation (video-editor.tsx lines 101–128)

A JavaScript duration is embedded as `Option ℚ`, with `none` standing for a
non-finite value (`Infinity`/`NaN`), so `isFinite` is `Option.isSome`. The
slider-backed `trimStart`/`trimEnd` values are finite rationals. -/

structure TrimUIState where
  trimStart : ℚ
  trimEnd : ℚ
  trimDialogOpen : Bool
  paused : Bool
  deriving DecidableEq, Repr

/-- `handleTrimOpen` (lines 101–111): `validEnd = isFinite(duration) ? duration : 0`,
set the window to `[0, validEnd]`, open the dialog and pause playback. -/
def handleTrimOpen (duration : Option ℚ) : TrimUIState :=
  let validEnd := match duration with
    | some d => d
    | none => 0
  { trimStart := 0, trimEnd := validEnd, trimDialogOpen := true, paused := true }

/-- The validation at the top of `handleTrimConfirm` (lines 123–128):
`!isFinite(trimStart) || !isFinite(trimEnd) || trimStart >= trimEnd ||
!isFinite(video.duration)` throws. The first two disjuncts are always false in
this embedding since the window is a pair of rationals. -/
def trimValidate (ts te : ℚ) (duration : Option ℚ) : Except String Unit :=
  if ts ≥ te ∨ duration.isNone then
    Except.error "Invalid trim values or video state"
  else Except.ok ()

/-! ## Canvas compositing semantics over ℝ (video-creator.tsx lines 150–281)

The 2D drawing surface is a function from coordinates to an intensity; an
image carries its natural size and a sample function. `ctx.transform` builds
the affine map `(x, y) ↦ (a x + c y + e, b x + d y + f)`; drawing an image
into a destination rectangle under the current transform and `globalAlpha`
source-over-blends the sampled image over the existing content. A transform
with zero determinant collapses the drawn rectangle to a measure-zero set and
paints nothing. Each frame starts from the black fill of lines 151–152 with
`globalAlpha = 1`. -/

structure Img where
  w : ℝ
  h : ℝ
  pix : ℝ → ℝ → ℝ

/-- An affine canvas transform in the parameter order of `ctx.transform(a, b, c, d, e, f)`. -/
structure Affine where
  a : ℝ
  b : ℝ
  c : ℝ
  d : ℝ
  e : ℝ
  f : ℝ

def Affine.det (T : Affine) : ℝ := T.a * T.d - T.b * T.c

/-- Composition as performed by successive `ctx.transform` calls: the drawn
object is first mapped by `U`, then by `T`. -/
def Affine.comp (T U : Affine) : Affine :=
  ⟨T.a * U.a + T.c * U.b, T.b * U.a + T.d * U.b,
   T.a * U.c + T.c * U.d, T.b * U.c + T.d * U.d,
   T.a * U.e + T.c * U.f + T.e, T.b * U.e + T.d * U.f + T.f⟩

/-- The identity transform (the canvas state after `ctx.save()`/fresh frame). -/
def idA : Affine := ⟨1, 0, 0, 1, 0, 0⟩

/-- `ctx.transform(1, 0, 0, 1, tx, ty)` as used by the slide transitions
(lines 174, 182). -/
def translateT (tx ty : ℝ) : Affine := ⟨1, 0, 0, 1, tx, ty⟩

/-- `ctx.transform(s, 0, 0, 1, width * (1 - s) / 2, 0)` — the horizontal
scale about the canvas centre used by the flip transition (line 215). -/
noncomputable def hScaleT (W s : ℝ) : Affine := ⟨s, 0, 0, 1, W * (1 - s) / 2, 0⟩

/-- `ctx.transform(-1, 0, 0, 1, width, 0)` — the horizontal mirror of the
flip transition (line 217). -/
def mirrorT (W : ℝ) : Affine := ⟨-1, 0, 0, 1, W, 0⟩

/-- The zoom transform of lines 190–191, at eased progress `tp`:
`scale = 1 + 0.2 * tp`, scaling about the canvas centre. -/
noncomputable def zoomT (W H tp : ℝ) : Affine :=
  ⟨1 + 0.2 * tp, 0, 0, 1 + 0.2 * tp,
   W * (1 - (1 + 0.2 * tp)) / 2, H * (1 - (1 + 0.2 * tp)) / 2⟩

/-- The rotation transform of lines 200–206, at eased progress `tp`:
rotation by `2π tp` about the canvas centre. -/
noncomputable def rotateT (W H tp : ℝ) : Affine :=
  ⟨Real.cos (Real.pi * 2 * tp), Real.sin (Real.pi * 2 * tp),
   -Real.sin (Real.pi * 2 * tp), Real.cos (Real.pi * 2 * tp),
   W / 2 * (1 - Real.cos (Real.pi * 2 * tp)) + H / 2 * Real.sin (Real.pi * 2 * tp),
   -(W / 2) * Real.sin (Real.pi * 2 * tp) + H / 2 * (1 - Real.cos (Real.pi * 2 * tp))⟩

/-- The drawing surface: intensity at each point. -/
def Canvas : Type := ℝ → ℝ → ℝ

/-- The solid fill of lines 151–152. -/
def black : Canvas := fun _ _ => 0

/-- `ctx.drawImage(img, dx, dy, dw, dh)` under current transform `T` and
`globalAlpha` `alpha`, source-over on the opaque canvas `F`: a point shows the
blend of the image sample at the inverse-transformed point when that point
lies in the destination rectangle, and the previous content otherwise. A
degenerate transform paints nothing. -/
noncomputable def drawIm (T : Affine) (alpha : ℝ) (img : Img)
    (dx dy dw dh : ℝ) (F : Canvas) : Canvas :=
  fun x y =>
    if T.det = 0 then F x y
    else if dx ≤ (T.d * (x - T.e) - T.c * (y - T.f)) / T.det
        ∧ (T.d * (x - T.e) - T.c * (y - T.f)) / T.det < dx + dw
        ∧ dy ≤ (T.a * (y - T.f) - T.b * (x - T.e)) / T.det
        ∧ (T.a * (y - T.f) - T.b * (x - T.e)) / T.det < dy + dh then
      alpha * img.pix (((T.d * (x - T.e) - T.c * (y - T.f)) / T.det - dx) / dw * img.w)
        (((T.a * (y - T.f) - T.b * (x - T.e)) / T.det - dy) / dh * img.h)
        + (1 - alpha) * F x y
    else F x y

/-- The destination rectangle `(offsetX, offsetY, renderWidth, renderHeight)`
computed by `drawImageCovered` (lines 252–274): uniform scale filling the
frame, cropping overflow, centred. -/
noncomputable def coveredRect (img : Img) (W H : ℝ) : ℝ × ℝ × ℝ × ℝ :=
  if img.w / img.h > W / H then
    ⟨-(H * (img.w / img.h) - W) / 2, 0, H * (img.w / img.h), H⟩
  else
    ⟨0, -(W / (img.w / img.h) - H) / 2, W, W / (img.w / img.h)⟩

/-- `drawImageCovered(ctx, img, width, height)` under transform `T` and alpha
`alpha` over canvas `F`. -/
noncomputable def drawCov (T : Affine) (alpha : ℝ) (img : Img) (W H : ℝ)
    (F : Canvas) : Canvas :=
  drawIm T alpha img (coveredRect img W H).1 (coveredRect img W H).2.1
    (coveredRect img W H).2.2.1 (coveredRect img W H).2.2.2 F

/-- Drawing one image alone, at full opacity, onto the freshly blacked frame —
the display-phase rendering of lines 154–157. -/
noncomputable def drawAlone (img : Img) (W H : ℝ) : Canvas :=
  drawCov idA 1 img W H black

/-- `easeInOutCubic` (lines 277–281) over ℝ. -/
noncomputable def easeR (t : ℝ) : ℝ :=
  if t < 1 / 2 then 4 * t * t * t else 1 - (-2 * t + 2) ^ 3 / 2

/-- The `switch (transition)` of lines 162–224, as a pure function of the
progress value `tp` it consumes (the scheduler hands it the eased progress of
line 160). Every case starts from the black fill with `globalAlpha = 1`. -/
noncomputable def transitionBody (kind : TransitionKind) (A B : Img)
    (W H tp : ℝ) : Canvas :=
  match kind with
  | TransitionKind.fade =>
      drawCov idA tp B W H (drawCov idA 1 A W H black)
  | TransitionKind.slide =>
      drawCov (translateT (W * (1 - tp)) 0) 1 B W H (drawCov idA 1 A W H black)
  | TransitionKind.verticalSlide =>
      drawCov (translateT 0 (H * (1 - tp))) 1 B W H (drawCov idA 1 A W H black)
  | TransitionKind.zoom =>
      drawCov (zoomT W H tp) tp B W H (drawCov idA 1 A W H black)
  | TransitionKind.rotate =>
      drawCov (rotateT W H tp) tp B W H (drawCov idA 1 A W H black)
  | TransitionKind.flip =>
      if Real.cos (Real.pi * tp) < 0 then
        drawCov ((hScaleT W (Real.cos (Real.pi * tp))).comp (mirrorT W)) 1 B W H black
      else
        drawCov (hScaleT W (Real.cos (Real.pi * tp))) 1 A W H black

/-- The full transition rendering of lines 158–224: linear window progress
`p` is eased (line 160) and handed to the per-kind compositor. -/
noncomputable def transitionR (kind : TransitionKind) (A B : Img)
    (W H p : ℝ) : Canvas :=
  transitionBody kind A B W H (easeR p)

/-- Pixel identity of two canvas contents on the visible output frame. -/
def CanvasEq (W H : ℝ) (F G : Canvas) : Prop :=
  ∀ x y, 0 ≤ x → x < W → 0 ≤ y → y < H → F x y = G x y

/-- Horizontal scaling of a finished canvas about its vertical centre line by
factor `s` (degenerate for `s = 0`): the reference picture against which the
flip branches are compared. -/
noncomputable def hScaleCanvas (W s : ℝ) (F : Canvas) : Canvas :=
  fun x y => if s = 0 then 0 else F ((x - W * (1 - s) / 2) / s) y

/-- Formalisation of the claim's words for the flip at `flipScale < 0`:
imageB mirrored horizontally about the canvas centre and then scaled by
`-flipScale` — i.e. drawn under the composite of the mirror followed by the
positive horizontal scale. -/
noncomputable def flipSpecNegBranch (B : Img) (W H s : ℝ) : Canvas :=
  drawCov ((hScaleT W (-s)).comp (mirrorT W)) 1 B W H black

/-- A concrete 720×720 test image with constant intensity 3. -/
def imgConst : Img := ⟨720, 720, fun _ _ => 3⟩

/-- A concrete 720×720 test image whose intensity is the horizontal source
coordinate (an asymmetric gradient). -/
def imgGrad : Img := ⟨720, 720, fun x _ => x⟩

/-- A 1280×720 constant test image (matches the 16:9 output frame). -/
def imgWideConst : Img := ⟨1280, 720, fun _ _ => 3⟩

/-- A 1440×720 constant test image (wider aspect than the 16:9 frame). -/
def imgExtraWide : Img := ⟨1440, 720, fun _ _ => 5⟩

/-- A 720×1440 constant test image (taller aspect than the 16:9 frame). -/
def imgTall : Img := ⟨720, 1440, fun _ _ => 5⟩

/-! ### Characterisation lemmas for the scheduler -/

theorem currentCycleQ_eq (k : ℕ) : currentCycleQ k = k / 105 := by
  unfold currentCycleQ currentTimeQ cycleTimeQ frameDuration imageDisplayTime transitionTime
  have h : (k : ℚ) * (1000 / 30) / (3000 + 500) = (k : ℚ) / ((105 : ℕ) : ℚ) := by
    push_cast; ring
  rw [h, Nat.floor_div_nat, Nat.floor_natCast]

theorem timeInCycleQ_eq (k : ℕ) : timeInCycleQ k = 100 * ((k % 105 : ℕ) : ℚ) / 3 := by
  unfold timeInCycleQ currentTimeQ cycleTimeQ frameDuration imageDisplayTime transitionTime
  rw [currentCycleQ_eq]
  have hk : (k : ℚ) = 105 * ((k / 105 : ℕ) : ℚ) + ((k % 105 : ℕ) : ℚ) := by
    exact_mod_cast (Nat.div_add_mod k 105).symm
  rw [hk]; ring

theorem timeInCycleQ_lt_iff (k : ℕ) :
    timeInCycleQ k < imageDisplayTime ↔ k % 105 < 90 := by
  rw [timeInCycleQ_eq]
  unfold imageDisplayTime
  rw [div_lt_iff₀ (by norm_num : (0 : ℚ) < 3)]
  constructor
  · intro h
    by_contra hge
    push_neg at hge
    have : (90 : ℚ) ≤ ((k % 105 : ℕ) : ℚ) := by exact_mod_cast hge
    linarith
  · intro h
    have : ((k % 105 : ℕ) : ℚ) < 90 := by exact_mod_cast h
    linarith

/-! ### Render loop lemmas -/

theorem loopRun_of_le (total n : ℕ) (h : n ≤ total) :
    loopRun total n = ⟨n, List.range n, false⟩ := by
  induction n with
  | zero => rfl
  | succ n ih =>
      rw [loopRun, Function.iterate_succ_apply', ← loopRun,
        ih (Nat.le_of_succ_le h)]
      have hlt : ¬ total ≤ n := by omega
      simp [loopStep, hlt, List.range_succ]

theorem loopRun_of_gt (total n : ℕ) (h : total < n) :
    loopRun total n = ⟨total, List.range total, true⟩ := by
  induction n with
  | zero => omega
  | succ n ih =>
      rw [loopRun, Function.iterate_succ_apply', ← loopRun]
      rcases Nat.lt_or_ge total n with hlt | hge
      · rw [ih hlt]; simp [loopStep]
      · have heq : total = n := by omega
        subst heq
        rw [loopRun_of_le total total le_rfl]
        simp [loopStep]

/-- **C2.** For a non-empty image list of length `N` with the source's
constants, `totalFrames = N * ((3000 + 500) / (1000/30)) = 105 * N` exactly
(so `round` has nothing to do); over any number of `renderFrame` invocations
the drawn frame indices are precisely `0, 1, …` in strictly increasing order,
each at most once, all below `totalFrames`, and `mediaRecorder.stop()` has
been called exactly when an invocation saw `currentFrame ≥ totalFrames`. -/
theorem totalFrames_and_loop (N n : ℕ) (hN : 0 < N) :
    totalFramesQ N = ((105 * N : ℕ) : ℚ)
    ∧ (loopRun (105 * N) n).currentFrame = min n (105 * N)
    ∧ (loopRun (105 * N) n).drawn = List.range (min n (105 * N))
    ∧ List.Chain' (· < ·) (loopRun (105 * N) n).drawn
    ∧ (loopRun (105 * N) n).drawn.Nodup
    ∧ (∀ x ∈ (loopRun (105 * N) n).drawn, x < 105 * N)
    ∧ ((loopRun (105 * N) n).stopped = true ↔ 105 * N < n) := by
  have htotal : totalFramesQ N = ((105 * N : ℕ) : ℚ) := by
    unfold totalFramesQ imageDisplayTime transitionTime frameDuration
    push_cast
    ring
  rcases le_or_lt n (105 * N) with h | h
  · rw [loopRun_of_le _ _ h]
    refine ⟨htotal, by simp [Nat.min_eq_left h], by simp [Nat.min_eq_left h],
      ?_, ?_, ?_, ?_⟩
    · exact (List.pairwise_lt_range n).chain'
    · exact List.nodup_range n
    · intro x hx
      have := List.mem_range.mp hx
      omega
    · simp; omega
  · rw [loopRun_of_gt _ _ h]
    refine ⟨htotal, by simp [Nat.min_eq_right (Nat.le_of_lt h)],
      by simp [Nat.min_eq_right (Nat.le_of_lt h)], ?_, ?_, ?_, ?_⟩
    · exact (List.pairwise_lt_range _).chain'
    · exact List.nodup_range _
    · intro x hx
      exact List.mem_range.mp hx
    · simp [h]

theorem totalFrames_and_loop_witness :
    0 < 3
    ∧ (totalFramesQ 3 = ((105 * 3 : ℕ) : ℚ)
    ∧ (loopRun (105 * 3) 2).currentFrame = min 2 (105 * 3)
    ∧ (loopRun (105 * 3) 2).drawn = List.range (min 2 (105 * 3))
    ∧ List.Chain' (· < ·) (loopRun (105 * 3) 2).drawn
    ∧ (loopRun (105 * 3) 2).drawn.Nodup
    ∧ (∀ x ∈ (loopRun (105 * 3) 2).drawn, x < 105 * 3)
    ∧ ((loopRun (105 * 3) 2).stopped = true ↔ 105 * 3 < 2)) :=
  ⟨by norm_num, totalFrames_and_loop 3 2 (by norm_num)⟩

/-- **C1.** On every tick of a render job with a non-empty image list, the
scheduler selects `imageA = images[⌊currentTime / cycleTime⌋ % N]` and
`imageB = images[(⌊currentTime / cycleTime⌋ + 1) % N]`; when
`timeInCycle < displayDuration` it draws imageA alone at full opacity, and
otherwise it delegates to the selected transition with the linear progress
`(timeInCycle − displayDuration) / transitionDuration` (the transition entry
point applies its easing curve to that value). Concretely, the cycle index is
`currentFrame / 105` and the display phase covers `currentFrame % 105 < 90`. -/
theorem scheduler_tick_spec {α : Type} [Inhabited α] (kind : TransitionKind)
    (imgs : List α) (k : ℕ) (hN : 0 < imgs.length) :
    renderTick kind imgs k =
      (if timeInCycleQ k < imageDisplayTime then
        TickOutput.display (imgs.getD (currentCycleQ k % imgs.length) default)
      else
        delegateTransition kind (imgs.getD (currentCycleQ k % imgs.length) default)
          (imgs.getD ((currentCycleQ k + 1) % imgs.length) default)
          ((timeInCycleQ k - imageDisplayTime) / transitionTime))
    ∧ currentCycleQ k = k / 105
    ∧ timeInCycleQ k = 100 * ((k % 105 : ℕ) : ℚ) / 3
    ∧ (timeInCycleQ k < imageDisplayTime ↔ k % 105 < 90) :=
  ⟨rfl, currentCycleQ_eq k, timeInCycleQ_eq k, timeInCycleQ_lt_iff k⟩

theorem scheduler_tick_spec_witness :
    0 < ([0, 1] : List ℕ).length
    ∧ (renderTick TransitionKind.fade ([0, 1] : List ℕ) 5 =
      (if timeInCycleQ 5 < imageDisplayTime then
        TickOutput.display (([0, 1] : List ℕ).getD
          (currentCycleQ 5 % ([0, 1] : List ℕ).length) default)
      else
        delegateTransition TransitionKind.fade
          (([0, 1] : List ℕ).getD (currentCycleQ 5 % ([0, 1] : List ℕ).length) default)
          (([0, 1] : List ℕ).getD ((currentCycleQ 5 + 1) % ([0, 1] : List ℕ).length) default)
          ((timeInCycleQ 5 - imageDisplayTime) / transitionTime))
    ∧ currentCycleQ 5 = 5 / 105
    ∧ timeInCycleQ 5 = 100 * ((5 % 105 : ℕ) : ℚ) / 3
    ∧ (timeInCycleQ 5 < imageDisplayTime ↔ 5 % 105 < 90)) :=
  ⟨by norm_num, scheduler_tick_spec TransitionKind.fade [0, 1] 5 (by norm_num)⟩

/-- **C4, counterexample.** The claim exempts fade (and the basic slide) from
the easing curve, but the source computes the eased progress once, before the
`switch`, for every kind: at frame 97 the fade transition is invoked with
progress `easeInOutCubic(7/15) = 1372/3375`, not with the linear `7/15`. -/
theorem fade_progress_eased_counterexample :
    renderTick TransitionKind.fade ([0, 1] : List ℕ) 97 =
      TickOutput.transition TransitionKind.fade 0 1 (1372 / 3375)
    ∧ (timeInCycleQ 97 - imageDisplayTime) / transitionTime = 7 / 15
    ∧ (1372 / 3375 : ℚ) ≠ 7 / 15 := by
  have hc : currentCycleQ 97 = 0 := by rw [currentCycleQ_eq]
  have ht : timeInCycleQ 97 = 9700 / 3 := by rw [timeInCycleQ_eq]; norm_num
  have hlin : (timeInCycleQ 97 - imageDisplayTime) / transitionTime = 7 / 15 := by
    rw [ht]; unfold imageDisplayTime transitionTime; norm_num
  refine ⟨?_, hlin, by norm_num⟩
  unfold renderTick
  rw [if_neg (by rw [ht]; unfold imageDisplayTime; norm_num), hlin, hc]
  unfold easeInOutCubicQ
  rw [if_pos (by norm_num : (7 : ℚ) / 15 < 1 / 2)]
  norm_num

/-- **C4, amended.** On every frame of a transition window the progress value
used by the selected transition — *including* fade and the basic slide — is
the linear time fraction passed through the cubic ease-in-out curve
`t < 1/2 ? 4t³ : 1 − (−2t+2)³/2`. -/
theorem transition_progress_always_eased {α : Type} [Inhabited α]
    (kind : TransitionKind) (imgs : List α) (k : ℕ) (hN : 0 < imgs.length)
    (h : ¬ timeInCycleQ k < imageDisplayTime) :
    renderTick kind imgs k =
      TickOutput.transition kind
        (imgs.getD (currentCycleQ k % imgs.length) default)
        (imgs.getD ((currentCycleQ k + 1) % imgs.length) default)
        (easeInOutCubicQ ((timeInCycleQ k - imageDisplayTime) / transitionTime)) := by
  unfold renderTick
  rw [if_neg h]

theorem transition_progress_always_eased_witness :
    (0 < ([0, 1] : List ℕ).length ∧ ¬ timeInCycleQ 97 < imageDisplayTime)
    ∧ renderTick TransitionKind.fade ([0, 1] : List ℕ) 97 =
      TickOutput.transition TransitionKind.fade
        (([0, 1] : List ℕ).getD (currentCycleQ 97 % ([0, 1] : List ℕ).length) default)
        (([0, 1] : List ℕ).getD ((currentCycleQ 97 + 1) % ([0, 1] : List ℕ).length) default)
        (easeInOutCubicQ ((timeInCycleQ 97 - imageDisplayTime) / transitionTime)) :=
  ⟨⟨by norm_num, by simp [timeInCycleQ_lt_iff]⟩,
    transition_progress_always_eased TransitionKind.fade [0, 1] 97 (by norm_num)
      (by simp [timeInCycleQ_lt_iff])⟩

/-! ### Capture pipeline theorems -/

/-- **C6.** Stopping is idempotent: invoking `stopRecording` a second time —
whether from the playback `ontimeupdate` handler or from the animation-frame
progress loop, both of which fire it once `currentTime ≥ end` — leaves the
state of the first stop untouched, so finalization runs exactly once per job,
the artifact is the chunk list accumulated at the first stop, and the second
invocation neither duplicates chunks nor alters the artifact. -/
theorem stop_finalizes_exactly_once (s : CaptureJob) (h : s.recording = true) :
    stopRecording (stopRecording s) = stopRecording s
    ∧ (stopRecording s).finalizeCount = s.finalizeCount + 1
    ∧ (stopRecording s).artifact = some s.chunks
    ∧ (stopRecording s).chunks = s.chunks := by
  unfold stopRecording
  rw [h]
  simp

theorem stop_finalizes_exactly_once_witness :
    (⟨true, [1, 2], 0, none⟩ : CaptureJob).recording = true
    ∧ (stopRecording (stopRecording ⟨true, [1, 2], 0, none⟩) =
        stopRecording ⟨true, [1, 2], 0, none⟩
    ∧ (stopRecording (⟨true, [1, 2], 0, none⟩ : CaptureJob)).finalizeCount =
        (⟨true, [1, 2], 0, none⟩ : CaptureJob).finalizeCount + 1
    ∧ (stopRecording (⟨true, [1, 2], 0, none⟩ : CaptureJob)).artifact =
        some (⟨true, [1, 2], 0, none⟩ : CaptureJob).chunks
    ∧ (stopRecording (⟨true, [1, 2], 0, none⟩ : CaptureJob)).chunks =
        (⟨true, [1, 2], 0, none⟩ : CaptureJob).chunks) :=
  ⟨rfl, stop_finalizes_exactly_once ⟨true, [1, 2], 0, none⟩ rfl⟩

/-- **C7, counterexample.** In the render pipeline an encoder error is *not*
surfaced and the partial chunks are *not* discarded: `renderVideo` installs no
`onerror` handler, so after the platform's error-then-stop event sequence the
job has rejected nothing and the `onstop` handler has finalized the partial
chunk list into the delivered artifact. -/
theorem render_error_finalizes_partial_counterexample :
    (renderRun [RecEvent.dataAvailable 5, RecEvent.errored, RecEvent.stopped]).rejected
      = false
    ∧ (renderRun [RecEvent.dataAvailable 5, RecEvent.errored, RecEvent.stopped]).delivered
      = some [5] :=
  ⟨rfl, rfl⟩

/-- **C7, amended.** Only the trim pipeline rejects on an encoder error: its
`onerror` handler settles the job promise with an error, and the promise's
first settlement wins, so the later `stop` event cannot turn the job into a
success — but that `stop` handler still assembles the partial chunks and
rebinds them as the video source rather than discarding them. The render
pipeline handles the error event with nothing at all (no `onerror` handler),
and its `onstop` finalizes the partial chunks into the delivered artifact. -/
theorem encoder_error_handling (c : ℕ) :
    (∀ s : RenderCapture, renderHandle s RecEvent.errored = s)
    ∧ renderRun [RecEvent.dataAvailable c, RecEvent.errored, RecEvent.stopped] =
        ⟨[c], some [c], false⟩
    ∧ trimRun [RecEvent.dataAvailable c, RecEvent.errored, RecEvent.stopped] =
        ⟨[c], some (TrimOutcome.rejectedWith "MediaRecorder error"), some [c]⟩ :=
  ⟨fun _ => rfl, rfl, rfl⟩

/-- **C8.** A non-audio file in the audio slot is rejected by the `onstop`
validation with the `InputValidation` error `'Invalid audio file format'`
before `combineVideoWithAudio` is entered: no runtime operation — neither the
runtime load nor a write, exec or read — is performed for the remux job. -/
theorem nonaudio_rejected_before_runtime (a : MediaFile)
    (h : List.isPrefixOf "audio/".data a.type.data = false) :
    finalizeAudio (some a) = ([], Except.error "Invalid audio file format") := by
  simp [finalizeAudio, h]

theorem nonaudio_rejected_before_runtime_witness :
    List.isPrefixOf "audio/".data (MediaFile.mk "video/mp4").type.data = false
    ∧ finalizeAudio (some (MediaFile.mk "video/mp4")) =
        ([], Except.error "Invalid audio file format") :=
  ⟨by decide, nonaudio_rejected_before_runtime (MediaFile.mk "video/mp4") (by decide)⟩

/-- **C9, counterexample.** For a source whose duration is not finite the
component does *not* reject entry into the range-selection state: the trim
dialog still opens — with the window degenerately defaulted to `[0, 0]`
rather than `[0, sourceDuration]`. -/
theorem trim_open_nonfinite_counterexample :
    (handleTrimOpen none).trimDialogOpen = true
    ∧ (handleTrimOpen none).trimStart = 0
    ∧ (handleTrimOpen none).trimEnd = 0 :=
  ⟨rfl, rfl, rfl⟩

/-- **C9, amended.** Opening the trim UI on a video of finite duration
defaults the window to `[0, sourceDuration]`. When the duration is not
finite the dialog still opens, but with the window `[0, 0]`, and no trim job
can be constructed for that video: the confirm-time validation rejects every
window because `isFinite(video.duration)` fails. -/
theorem trim_open_defaults_and_nonfinite_rejection (d : ℚ) :
    ((handleTrimOpen (some d)).trimStart = 0
      ∧ (handleTrimOpen (some d)).trimEnd = d
      ∧ (handleTrimOpen (some d)).trimDialogOpen = true)
    ∧ ((handleTrimOpen none).trimStart = 0
      ∧ (handleTrimOpen none).trimEnd = 0
      ∧ (handleTrimOpen none).trimDialogOpen = true)
    ∧ (∀ ts te : ℚ, trimValidate ts te none =
        Except.error "Invalid trim values or video state") := by
  refine ⟨⟨rfl, rfl, rfl⟩, ⟨rfl, rfl, rfl⟩, ?_⟩
  intro ts te
  unfold trimValidate
  simp

/-! ### Canvas geometry lemmas -/

theorem drawIm_alpha_zero (T : Affine) (img : Img) (dx dy dw dh : ℝ) (F : Canvas) :
    drawIm T 0 img dx dy dw dh F = F := by
  funext x y
  unfold drawIm
  split_ifs <;> ring

theorem drawCov_alpha_zero (T : Affine) (img : Img) (W H : ℝ) (F : Canvas) :
    drawCov T 0 img W H F = F := by
  unfold drawCov
  exact drawIm_alpha_zero ..

theorem drawIm_idA_apply (alpha : ℝ) (img : Img) (dx dy dw dh : ℝ) (F : Canvas)
    (x y : ℝ) :
    drawIm idA alpha img dx dy dw dh F x y =
      if dx ≤ x ∧ x < dx + dw ∧ dy ≤ y ∧ y < dy + dh then
        alpha * img.pix ((x - dx) / dw * img.w) ((y - dy) / dh * img.h)
          + (1 - alpha) * F x y
      else F x y := by
  simp only [drawIm, idA, Affine.det]
  norm_num

theorem drawIm_translate_apply (tx ty alpha : ℝ) (img : Img) (dx dy dw dh : ℝ)
    (F : Canvas) (x y : ℝ) :
    drawIm (translateT tx ty) alpha img dx dy dw dh F x y =
      if dx ≤ x - tx ∧ x - tx < dx + dw ∧ dy ≤ y - ty ∧ y - ty < dy + dh then
        alpha * img.pix ((x - tx - dx) / dw * img.w) ((y - ty - dy) / dh * img.h)
          + (1 - alpha) * F x y
      else F x y := by
  simp only [drawIm, translateT, Affine.det]
  norm_num

theorem drawIm_scale_apply (s ex ey : ℝ) (hs : s ≠ 0) (alpha : ℝ) (img : Img)
    (dx dy dw dh : ℝ) (F : Canvas) (x y : ℝ) :
    drawIm ⟨s, 0, 0, s, ex, ey⟩ alpha img dx dy dw dh F x y =
      if dx ≤ (x - ex) / s ∧ (x - ex) / s < dx + dw
          ∧ dy ≤ (y - ey) / s ∧ (y - ey) / s < dy + dh then
        alpha * img.pix (((x - ex) / s - dx) / dw * img.w)
          (((y - ey) / s - dy) / dh * img.h) + (1 - alpha) * F x y
      else F x y := by
  simp only [drawIm, Affine.det]
  have hdet : s * s - 0 * 0 ≠ 0 := by simpa using mul_ne_zero hs hs
  rw [if_neg hdet]
  have h1 : (s * (x - ex) - 0 * (y - ey)) / (s * s - 0 * 0) = (x - ex) / s := by
    field_simp
    ring
  have h2 : (s * (y - ey) - 0 * (x - ex)) / (s * s - 0 * 0) = (y - ey) / s := by
    field_simp
    ring
  rw [h1, h2]

theorem drawIm_hScaleT_apply (W s : ℝ) (hs : s ≠ 0) (alpha : ℝ) (img : Img)
    (dx dy dw dh : ℝ) (F : Canvas) (x y : ℝ) :
    drawIm (hScaleT W s) alpha img dx dy dw dh F x y =
      if dx ≤ (x - W * (1 - s) / 2) / s ∧ (x - W * (1 - s) / 2) / s < dx + dw
          ∧ dy ≤ y ∧ y < dy + dh then
        alpha * img.pix (((x - W * (1 - s) / 2) / s - dx) / dw * img.w)
          ((y - dy) / dh * img.h) + (1 - alpha) * F x y
      else F x y := by
  simp only [drawIm, hScaleT, Affine.det]
  have hdet : s * 1 - 0 * 0 ≠ 0 := by simpa using hs
  rw [if_neg hdet]
  have h1 : (1 * (x - W * (1 - s) / 2) - 0 * (y - 0)) / (s * 1 - 0 * 0)
      = (x - W * (1 - s) / 2) / s := by
    field_simp
  have h2 : (s * (y - 0) - 0 * (x - W * (1 - s) / 2)) / (s * 1 - 0 * 0) = y := by
    field_simp
  rw [h1, h2]

theorem coveredRect_covers (img : Img) (W H : ℝ) (hW : 0 < W) (hH : 0 < H)
    (hw : 0 < img.w) (hh : 0 < img.h) :
    (coveredRect img W H).1 ≤ 0
    ∧ W ≤ (coveredRect img W H).1 + (coveredRect img W H).2.2.1
    ∧ (coveredRect img W H).2.1 ≤ 0
    ∧ H ≤ (coveredRect img W H).2.1 + (coveredRect img W H).2.2.2 := by
  unfold coveredRect
  split_ifs with hgt
  · have h1 : W < H * (img.w / img.h) := by
      rw [gt_iff_lt, div_lt_div_iff₀ hH hh] at hgt
      rw [← mul_div_assoc, lt_div_iff₀ hh]
      linarith
    exact ⟨by dsimp only; linarith, by dsimp only; linarith,
      by dsimp only; linarith, by dsimp only; linarith⟩
  · push_neg at hgt
    have hr : 0 < img.w / img.h := div_pos hw hh
    have h1 : H ≤ W / (img.w / img.h) := by
      rw [le_div_iff₀ hr]
      rw [div_le_div_iff₀ hh hH] at hgt
      rw [← mul_div_assoc, div_le_iff₀ hh]
      linarith
    exact ⟨by dsimp only; linarith, by dsimp only; linarith,
      by dsimp only; linarith, by dsimp only; linarith⟩

theorem coveredRect_dx_zero (img : Img) (W H : ℝ) (hH : 0 < H) (hh : 0 < img.h)
    (hle : img.w * H ≤ W * img.h) : (coveredRect img W H).1 = 0 := by
  unfold coveredRect
  rw [if_neg]
  rw [gt_iff_lt, not_lt, div_le_div_iff₀ hh hH]
  linarith

theorem coveredRect_dy_zero (img : Img) (W H : ℝ) (hW : 0 < W) (hH : 0 < H)
    (hw : 0 < img.w) (hh : 0 < img.h)
    (hge : W * img.h ≤ img.w * H) : (coveredRect img W H).2.1 = 0 := by
  unfold coveredRect
  split_ifs with hgt
  · rfl
  · push_neg at hgt
    rw [div_le_div_iff₀ hh hH] at hgt
    have hr : img.w / img.h = W / H := by
      rw [div_eq_div_iff hh.ne' hH.ne']
      linarith
    dsimp only
    rw [hr]
    have hWH : W / (W / H) = H := by
      field_simp
    rw [hWH]
    ring

theorem drawCov_idA_one (img : Img) (W H : ℝ) (F : Canvas) (hW : 0 < W)
    (hH : 0 < H) (hw : 0 < img.w) (hh : 0 < img.h) :
    CanvasEq W H (drawCov idA 1 img W H F) (drawAlone img W H) := by
  intro x y hx hxW hy hyH
  obtain ⟨h1, h2, h3, h4⟩ := coveredRect_covers img W H hW hH hw hh
  unfold drawAlone drawCov
  rw [drawIm_idA_apply, drawIm_idA_apply,
    if_pos ⟨by linarith, by linarith, by linarith, by linarith⟩,
    if_pos ⟨by linarith, by linarith, by linarith, by linarith⟩]
  ring

theorem hScaleT_comp_mirrorT (W s : ℝ) :
    (hScaleT W s).comp (mirrorT W) = hScaleT W (-s) := by
  unfold hScaleT mirrorT Affine.comp
  congr 1 <;> ring

theorem drawCov_hScaleT (img : Img) (W H s : ℝ) :
    drawCov (hScaleT W s) 1 img W H black = hScaleCanvas W s (drawAlone img W H) := by
  funext x y
  by_cases hs : s = 0
  · subst hs
    unfold drawCov drawIm hScaleCanvas
    simp [hScaleT, Affine.det, black]
  · unfold drawCov hScaleCanvas drawAlone drawCov
    rw [drawIm_hScaleT_apply W s hs, drawIm_idA_apply, if_neg hs]
    split_ifs with h
    · simp [black]
    · rfl

/-! ### Easing curve lemmas -/

theorem easeR_zero : easeR 0 = 0 := by
  unfold easeR
  norm_num

theorem easeR_half : easeR (1 / 2) = 1 / 2 := by
  unfold easeR
  norm_num

theorem easeR_one : easeR 1 = 1 := by
  unfold easeR
  norm_num

theorem easeR_strictMonoOn : StrictMonoOn easeR (Set.Icc (0 : ℝ) 1) := by
  intro a ha b hb hab
  simp only [Set.mem_Icc] at ha hb
  unfold easeR
  rcases lt_or_ge a (1 / 2) with ha2 | ha2
  · rcases lt_or_ge b (1 / 2) with hb2 | hb2
    · rw [if_pos ha2, if_pos hb2]
      have h3 : a ^ 3 < b ^ 3 := pow_lt_pow_left₀ hab ha.1 (by norm_num)
      have e1 : 4 * a * a * a = 4 * a ^ 3 := by ring
      have e2 : 4 * b * b * b = 4 * b ^ 3 := by ring
      rw [e1, e2]
      linarith
    · rw [if_pos ha2, if_neg (not_lt.mpr hb2)]
      have hc : a ^ 3 < (1 / 2 : ℝ) ^ 3 := pow_lt_pow_left₀ ha2 ha.1 (by norm_num)
      have hb1 : (0 : ℝ) ≤ -2 * b + 2 := by linarith [hb.2]
      have hb3 : (-2 * b + 2) ^ 3 ≤ 1 := by
        have := pow_le_pow_left₀ hb1 (by linarith : -2 * b + 2 ≤ 1) 3
        simpa using this
      have e1 : 4 * a * a * a = 4 * a ^ 3 := by ring
      rw [e1]
      nlinarith [hc]
  · have hb2 : ¬ b < 1 / 2 := not_lt.mpr (by linarith)
    rw [if_neg (not_lt.mpr ha2), if_neg hb2]
    have h0 : (0 : ℝ) ≤ -2 * b + 2 := by linarith [hb.2]
    have h3 : (-2 * b + 2) ^ 3 < (-2 * a + 2) ^ 3 :=
      pow_lt_pow_left₀ (by linarith) h0 (by norm_num)
    linarith

theorem easeR_continuous : Continuous easeR := by
  have heq : easeR = fun t : ℝ =>
      if t ≤ 1 / 2 then 4 * t * t * t else 1 - (-2 * t + 2) ^ 3 / 2 := by
    funext t
    unfold easeR
    rcases lt_trichotomy t (1 / 2) with h | h | h
    · rw [if_pos h, if_pos (le_of_lt h)]
    · subst h
      norm_num
    · rw [if_neg (not_lt.mpr (le_of_lt h)), if_neg (not_le.mpr h)]
  rw [heq]
  apply Continuous.if_le
  · continuity
  · continuity
  · exact continuous_id
  · exact continuous_const
  · intro x hx
    rw [hx]
    norm_num

theorem easeR_mem_Icc (t : ℝ) (ht : t ∈ Set.Icc (0 : ℝ) 1) :
    easeR t ∈ Set.Icc (0 : ℝ) 1 := by
  have h0 : (0 : ℝ) ∈ Set.Icc (0 : ℝ) 1 := by norm_num
  have h1 : (1 : ℝ) ∈ Set.Icc (0 : ℝ) 1 := by norm_num
  have mono := easeR_strictMonoOn.monotoneOn
  constructor
  · have := mono h0 ht ht.1
    rwa [easeR_zero] at this
  · have := mono ht h1 ht.2
    rwa [easeR_one] at this

theorem easeR_image : easeR '' Set.Icc 0 1 = Set.Icc (0 : ℝ) 1 := by
  apply Set.Subset.antisymm
  · rintro y ⟨t, ht, rfl⟩
    exact easeR_mem_Icc t ht
  · have h := intermediate_value_Icc (by norm_num : (0 : ℝ) ≤ 1)
      easeR_continuous.continuousOn
    rwa [easeR_zero, easeR_one] at h

theorem cos_pi_mul_neg_iff (t : ℝ) (ht : t ∈ Set.Icc (0 : ℝ) 1) :
    Real.cos (Real.pi * t) < 0 ↔ 1 / 2 < t := by
  obtain ⟨h0, h1⟩ := ht
  constructor
  · intro h
    by_contra hle
    push_neg at hle
    have hmem : Real.pi * t ∈ Set.Icc (-(Real.pi / 2)) (Real.pi / 2) := by
      constructor
      · have h2 : 0 ≤ Real.pi * t := mul_nonneg Real.pi_pos.le h0
        have := Real.pi_pos
        linarith
      · calc Real.pi * t ≤ Real.pi * (1 / 2) :=
              mul_le_mul_of_nonneg_left hle Real.pi_pos.le
          _ = Real.pi / 2 := by ring
    linarith [Real.cos_nonneg_of_mem_Icc hmem]
  · intro h
    apply Real.cos_neg_of_pi_div_two_lt_of_lt
    · calc Real.pi / 2 = Real.pi * (1 / 2) := by ring
        _ < Real.pi * t := by
            exact mul_lt_mul_of_pos_left h Real.pi_pos
    · calc Real.pi * t ≤ Real.pi * 1 := mul_le_mul_of_nonneg_left h1 Real.pi_pos.le
        _ < Real.pi + Real.pi / 2 := by linarith [Real.pi_pos]

/-- **C10.** `easeInOutCubic` restricted to `[0, 1]` is strictly increasing
and maps `[0, 1]` onto `[0, 1]`, with value `0` at `0`, `1/2` at `1/2` and
`1` at `1`; consequently easing preserves the transition's endpoint states,
and the flip swap — the sign change of `cos(π · easedProgress)` — occurs
exactly at the wall-clock midpoint `p = 1/2` of the transition window. -/
theorem ease_monotone_onto_and_flip_midpoint (p : ℝ) (hp : p ∈ Set.Icc (0 : ℝ) 1) :
    StrictMonoOn easeR (Set.Icc (0 : ℝ) 1)
    ∧ easeR '' Set.Icc 0 1 = Set.Icc (0 : ℝ) 1
    ∧ easeR 0 = 0 ∧ easeR (1 / 2) = 1 / 2 ∧ easeR 1 = 1
    ∧ (Real.cos (Real.pi * easeR p) < 0 ↔ 1 / 2 < p) := by
  refine ⟨easeR_strictMonoOn, easeR_image, easeR_zero, easeR_half, easeR_one, ?_⟩
  rw [cos_pi_mul_neg_iff (easeR p) (easeR_mem_Icc p hp)]
  have h2 : (1 / 2 : ℝ) ∈ Set.Icc (0 : ℝ) 1 := by norm_num
  constructor
  · intro h
    by_contra hle
    push_neg at hle
    have := easeR_strictMonoOn.monotoneOn hp h2 hle
    rw [easeR_half] at this
    linarith
  · intro h
    have := easeR_strictMonoOn h2 hp h
    rwa [easeR_half] at this

theorem ease_monotone_onto_and_flip_midpoint_witness :
    (3 / 4 : ℝ) ∈ Set.Icc (0 : ℝ) 1
    ∧ (StrictMonoOn easeR (Set.Icc (0 : ℝ) 1)
    ∧ easeR '' Set.Icc 0 1 = Set.Icc (0 : ℝ) 1
    ∧ easeR 0 = 0 ∧ easeR (1 / 2) = 1 / 2 ∧ easeR 1 = 1
    ∧ (Real.cos (Real.pi * easeR (3 / 4)) < 0 ↔ 1 / 2 < (3 / 4 : ℝ))) :=
  ⟨by norm_num,
    ease_monotone_onto_and_flip_midpoint (3 / 4) (by norm_num)⟩

/-! ### Concrete covered-rectangle evaluations -/

theorem coveredRect_imgGrad : coveredRect imgGrad 720 720 = (0, 0, 720, 720) := by
  unfold coveredRect imgGrad
  norm_num

theorem coveredRect_imgConst : coveredRect imgConst 720 720 = (0, 0, 720, 720) := by
  unfold coveredRect imgConst
  norm_num

theorem coveredRect_imgWideConst :
    coveredRect imgWideConst 1280 720 = (0, 0, 1280, 720) := by
  unfold coveredRect imgWideConst
  norm_num

theorem coveredRect_imgExtraWide :
    coveredRect imgExtraWide 1280 720 = (-80, 0, 1440, 720) := by
  unfold coveredRect imgExtraWide
  norm_num

theorem coveredRect_imgTall :
    coveredRect imgTall 1280 720 = (0, -920, 1280, 2560) := by
  unfold coveredRect imgTall
  norm_num

/-- **C5, amended.** With `flipScale = cos(π · tp)` for the progress value
`tp` the flip case consumes: whenever `flipScale ≥ 0` the output is imageA
scaled horizontally about the canvas centre by `flipScale`; whenever
`flipScale < 0` the output is imageB scaled horizontally about the canvas
centre by `−flipScale` with **no net mirroring** — the explicit mirror
transform composes with the negative scale into a positive one — and the
visible image still swaps discretely at progress `0.5`, with no cross-fade. -/
theorem flip_scale_branches (A B : Img) (W H tp : ℝ) :
    (0 ≤ Real.cos (Real.pi * tp) →
      transitionBody TransitionKind.flip A B W H tp
        = hScaleCanvas W (Real.cos (Real.pi * tp)) (drawAlone A W H))
    ∧ (Real.cos (Real.pi * tp) < 0 →
      transitionBody TransitionKind.flip A B W H tp
        = hScaleCanvas W (-Real.cos (Real.pi * tp)) (drawAlone B W H))
    ∧ (tp ∈ Set.Icc (0 : ℝ) 1 → (Real.cos (Real.pi * tp) < 0 ↔ 1 / 2 < tp)) := by
  refine ⟨?_, ?_, fun h => cos_pi_mul_neg_iff tp h⟩
  · intro h
    simp only [transitionBody]
    rw [if_neg (not_lt.mpr h)]
    exact drawCov_hScaleT A W H _
  · intro h
    simp only [transitionBody]
    rw [if_pos h, hScaleT_comp_mirrorT]
    exact drawCov_hScaleT B W H _

theorem flip_scale_branches_witness :
    0 ≤ Real.cos (Real.pi * 0)
    ∧ transitionBody TransitionKind.flip imgConst imgGrad 720 720 0
        = hScaleCanvas 720 (Real.cos (Real.pi * 0)) (drawAlone imgConst 720 720) :=
  ⟨by rw [mul_zero, Real.cos_zero]; norm_num,
    (flip_scale_branches imgConst imgGrad 720 720 0).1
      (by rw [mul_zero, Real.cos_zero]; norm_num)⟩

/-- **C5, counterexample.** At progress 1 the flip's scale is
`cos π = −1 < 0`, and the code's output is plain imageB — the gradient image
shows value 100 at canvas point (100, 0) — whereas "imageB mirrored
horizontally and scaled by `−flipScale`" (the claim's words, formalised by
`flipSpecNegBranch`) shows the mirrored value 620 there. The code's mirror
cancels against the negative scale, so no net mirroring survives. -/
theorem flip_mirror_counterexample :
    Real.cos (Real.pi * 1) < 0
    ∧ transitionBody TransitionKind.flip imgConst imgGrad 720 720 1 100 0 = 100
    ∧ flipSpecNegBranch imgGrad 720 720 (Real.cos (Real.pi * 1)) 100 0 = 620
    ∧ (100 : ℝ) ≠ 620 := by
  have hcos : Real.cos (Real.pi * 1) = -1 := by rw [mul_one, Real.cos_pi]
  have hneg : (-(-1 : ℝ)) = 1 := by norm_num
  refine ⟨by rw [hcos]; norm_num, ?_, ?_, by norm_num⟩
  · simp only [transitionBody]
    rw [hcos, if_pos (by norm_num : (-1 : ℝ) < 0), hScaleT_comp_mirrorT, hneg]
    unfold drawCov
    rw [coveredRect_imgGrad]
    rw [drawIm_hScaleT_apply 720 1 (by norm_num)]
    rw [if_pos (by norm_num)]
    simp only [imgGrad, black]
    norm_num
  · unfold flipSpecNegBranch
    rw [hcos, hneg, hScaleT_comp_mirrorT]
    unfold drawCov
    rw [coveredRect_imgGrad]
    rw [drawIm_hScaleT_apply 720 (-1) (by norm_num)]
    rw [if_pos (by norm_num)]
    simp only [imgGrad, black]
    norm_num

/-- **C3, amended.** Endpoint fidelity of the transitions, as the code
actually behaves. At progress 0 the output is pixel-identical to imageA alone
for fade, zoom and rotate unconditionally, and for slide (resp.
vertical-slide) provided imageB's aspect ratio does not exceed (resp. is not
below) the canvas ratio — otherwise imageB's covered-draw overflow bleeds
onto the frame edge. At progress 1 the output is pixel-identical to imageB
alone for fade, slide, vertical-slide and rotate; the zoom's progress-1 frame
instead shows only imageB *scaled by 1.2 about the centre*, which is not
pixel-identical to drawing imageB alone. -/
theorem transition_endpoint_fidelity (A B : Img) (W H : ℝ) (hW : 0 < W)
    (hH : 0 < H) (hAw : 0 < A.w) (hAh : 0 < A.h) (hBw : 0 < B.w) (hBh : 0 < B.h) :
    CanvasEq W H (transitionR TransitionKind.fade A B W H 0) (drawAlone A W H)
    ∧ CanvasEq W H (transitionR TransitionKind.fade A B W H 1) (drawAlone B W H)
    ∧ (B.w * H ≤ W * B.h →
        CanvasEq W H (transitionR TransitionKind.slide A B W H 0) (drawAlone A W H))
    ∧ CanvasEq W H (transitionR TransitionKind.slide A B W H 1) (drawAlone B W H)
    ∧ (W * B.h ≤ B.w * H →
        CanvasEq W H (transitionR TransitionKind.verticalSlide A B W H 0)
          (drawAlone A W H))
    ∧ CanvasEq W H (transitionR TransitionKind.verticalSlide A B W H 1)
        (drawAlone B W H)
    ∧ CanvasEq W H (transitionR TransitionKind.zoom A B W H 0) (drawAlone A W H)
    ∧ CanvasEq W H (transitionR TransitionKind.zoom A B W H 1)
        (drawCov (zoomT W H 1) 1 B W H black)
    ∧ CanvasEq W H (transitionR TransitionKind.rotate A B W H 0) (drawAlone A W H)
    ∧ CanvasEq W H (transitionR TransitionKind.rotate A B W H 1) (drawAlone B W H) := by
  refine ⟨?_, ?_, ?_, ?_, ?_, ?_, ?_, ?_, ?_, ?_⟩
  · -- fade at 0: drawing B with alpha 0 leaves the A frame untouched
    have h : transitionR TransitionKind.fade A B W H 0 = drawAlone A W H := by
      simp only [transitionR, transitionBody, easeR_zero]
      rw [drawCov_alpha_zero]
      rfl
    exact fun x y _ _ _ _ => by rw [h]
  · -- fade at 1: B is drawn covered at alpha 1 over the A frame
    simp only [transitionR, transitionBody, easeR_one]
    exact drawCov_idA_one B W H _ hW hH hBw hBh
  · -- slide at 0 under the aspect condition: B sits entirely right of the frame
    intro hcond x y hx hxW hy hyH
    simp only [transitionR, transitionBody, easeR_zero]
    unfold drawCov
    rw [drawIm_translate_apply]
    rw [if_neg ?_]
    · rfl
    rintro ⟨hc1, -⟩
    rw [coveredRect_dx_zero B W H hH hBh hcond] at hc1
    have hWone : W * (1 - (0 : ℝ)) = W := by ring
    rw [hWone] at hc1
    linarith
  · -- slide at 1: the translation vanishes
    have ht : translateT (W * (1 - easeR 1)) 0 = idA := by
      rw [easeR_one]
      unfold translateT idA
      congr 1 <;> ring
    simp only [transitionR, transitionBody]
    rw [ht]
    exact drawCov_idA_one B W H _ hW hH hBw hBh
  · -- vertical slide at 0 under the aspect condition: B sits below the frame
    intro hcond x y hx hxW hy hyH
    simp only [transitionR, transitionBody, easeR_zero]
    unfold drawCov
    rw [drawIm_translate_apply]
    rw [if_neg ?_]
    · rfl
    rintro ⟨-, -, hc3, -⟩
    rw [coveredRect_dy_zero B W H hW hH hBw hBh hcond] at hc3
    have hHone : H * (1 - (0 : ℝ)) = H := by ring
    rw [hHone] at hc3
    linarith
  · -- vertical slide at 1
    have ht : translateT 0 (H * (1 - easeR 1)) = idA := by
      rw [easeR_one]
      unfold translateT idA
      congr 1 <;> ring
    simp only [transitionR, transitionBody]
    rw [ht]
    exact drawCov_idA_one B W H _ hW hH hBw hBh
  · -- zoom at 0: B is drawn at alpha 0
    have h : transitionR TransitionKind.zoom A B W H 0 = drawAlone A W H := by
      simp only [transitionR, transitionBody, easeR_zero]
      rw [drawCov_alpha_zero]
      rfl
    exact fun x y _ _ _ _ => by rw [h]
  · -- zoom at 1: only B is visible (scaled by 1.2); the underlying A frame
    -- is completely painted over
    intro x y hx hxW hy hyH
    simp only [transitionR, transitionBody, easeR_one]
    obtain ⟨h1, h2, h3, h4⟩ := coveredRect_covers B W H hW hH hBw hBh
    unfold drawCov zoomT
    rw [drawIm_scale_apply (1 + 0.2 * 1) _ _ (by norm_num),
      drawIm_scale_apply (1 + 0.2 * 1) _ _ (by norm_num)]
    have hs : (0 : ℝ) < 1 + 0.2 * 1 := by norm_num
    have hqx0 : 0 ≤ (x - W * (1 - (1 + 0.2 * 1)) / 2) / (1 + 0.2 * 1) := by
      apply div_nonneg _ hs.le
      nlinarith
    have hqxW : (x - W * (1 - (1 + 0.2 * 1)) / 2) / (1 + 0.2 * 1) < W := by
      rw [div_lt_iff₀ hs]
      nlinarith
    have hqy0 : 0 ≤ (y - H * (1 - (1 + 0.2 * 1)) / 2) / (1 + 0.2 * 1) := by
      apply div_nonneg _ hs.le
      nlinarith
    have hqyH : (y - H * (1 - (1 + 0.2 * 1)) / 2) / (1 + 0.2 * 1) < H := by
      rw [div_lt_iff₀ hs]
      nlinarith
    rw [if_pos ⟨by linarith, by linarith, by linarith, by linarith⟩,
      if_pos ⟨by linarith, by linarith, by linarith, by linarith⟩]
    ring
  · -- rotate at 0: B is drawn at alpha 0
    have h : transitionR TransitionKind.rotate A B W H 0 = drawAlone A W H := by
      simp only [transitionR, transitionBody, easeR_zero]
      rw [drawCov_alpha_zero]
      rfl
    exact fun x y _ _ _ _ => by rw [h]
  · -- rotate at 1: the full 2π rotation is the identity transform
    have hrot : rotateT W H 1 = idA := by
      unfold rotateT idA
      rw [show Real.pi * 2 * 1 = 2 * Real.pi by ring, Real.cos_two_pi,
        Real.sin_two_pi]
      congr 1 <;> ring
    simp only [transitionR, transitionBody, easeR_one]
    rw [hrot]
    exact drawCov_idA_one B W H _ hW hH hBw hBh

theorem transition_endpoint_fidelity_witness :
    ((0 : ℝ) < 720 ∧ (0 : ℝ) < 720 ∧ 0 < imgConst.w ∧ 0 < imgConst.h)
    ∧ (CanvasEq 720 720 (transitionR TransitionKind.fade imgConst imgConst 720 720 0)
        (drawAlone imgConst 720 720)
    ∧ CanvasEq 720 720 (transitionR TransitionKind.fade imgConst imgConst 720 720 1)
        (drawAlone imgConst 720 720)
    ∧ (imgConst.w * 720 ≤ 720 * imgConst.h →
        CanvasEq 720 720 (transitionR TransitionKind.slide imgConst imgConst 720 720 0)
          (drawAlone imgConst 720 720))
    ∧ CanvasEq 720 720 (transitionR TransitionKind.slide imgConst imgConst 720 720 1)
        (drawAlone imgConst 720 720)
    ∧ (720 * imgConst.h ≤ imgConst.w * 720 →
        CanvasEq 720 720
          (transitionR TransitionKind.verticalSlide imgConst imgConst 720 720 0)
          (drawAlone imgConst 720 720))
    ∧ CanvasEq 720 720
        (transitionR TransitionKind.verticalSlide imgConst imgConst 720 720 1)
        (drawAlone imgConst 720 720)
    ∧ CanvasEq 720 720 (transitionR TransitionKind.zoom imgConst imgConst 720 720 0)
        (drawAlone imgConst 720 720)
    ∧ CanvasEq 720 720 (transitionR TransitionKind.zoom imgConst imgConst 720 720 1)
        (drawCov (zoomT 720 720 1) 1 imgConst 720 720 black)
    ∧ CanvasEq 720 720 (transitionR TransitionKind.rotate imgConst imgConst 720 720 0)
        (drawAlone imgConst 720 720)
    ∧ CanvasEq 720 720 (transitionR TransitionKind.rotate imgConst imgConst 720 720 1)
        (drawAlone imgConst 720 720)) :=
  ⟨⟨by norm_num, by norm_num, by norm_num [imgConst], by norm_num [imgConst]⟩,
    transition_endpoint_fidelity imgConst imgConst 720 720 (by norm_num)
      (by norm_num) (by norm_num [imgConst]) (by norm_num [imgConst])
      (by norm_num [imgConst]) (by norm_num [imgConst])⟩

/-- **C3, counterexample.** The claim fails on the code in two independent
ways. Zoom at progress 1 draws imageB scaled by 1.2 about the centre: with
the horizontal-gradient image the canvas origin shows sample 60, while
drawing imageB alone shows 0 there — not pixel-identical. And slide (resp.
vertical-slide) at progress 0 is not imageA alone when imageB is wider
(resp. taller) in aspect than the canvas: the covered draw's crop overflow
bleeds onto the right (resp. bottom) edge of the frame. -/
theorem transition_endpoint_counterexample :
    ¬ CanvasEq 720 720 (transitionR TransitionKind.zoom imgConst imgGrad 720 720 1)
        (drawAlone imgGrad 720 720)
    ∧ ¬ CanvasEq 1280 720
        (transitionR TransitionKind.slide imgWideConst imgExtraWide 1280 720 0)
        (drawAlone imgWideConst 1280 720)
    ∧ ¬ CanvasEq 1280 720
        (transitionR TransitionKind.verticalSlide imgWideConst imgTall 1280 720 0)
        (drawAlone imgWideConst 1280 720) := by
  refine ⟨?_, ?_, ?_⟩
  · intro h
    have hval := h 0 0 le_rfl (by norm_num) le_rfl (by norm_num)
    have hL : transitionR TransitionKind.zoom imgConst imgGrad 720 720 1 0 0 = 60 := by
      simp only [transitionR, transitionBody, easeR_one]
      unfold drawCov zoomT
      rw [coveredRect_imgGrad]
      rw [drawIm_scale_apply (1 + 0.2 * 1) _ _ (by norm_num)]
      rw [if_pos (by norm_num)]
      simp only [imgGrad]
      norm_num
    have hR : drawAlone imgGrad 720 720 0 0 = 0 := by
      unfold drawAlone drawCov
      rw [coveredRect_imgGrad, drawIm_idA_apply, if_pos (by norm_num)]
      simp only [imgGrad, black]
      norm_num
    rw [hL, hR] at hval
    norm_num at hval
  · intro h
    have hval := h 1250 10 (by norm_num) (by norm_num) (by norm_num) (by norm_num)
    have hL : transitionR TransitionKind.slide imgWideConst imgExtraWide
        1280 720 0 1250 10 = 5 := by
      simp only [transitionR, transitionBody, easeR_zero]
      unfold drawCov
      rw [coveredRect_imgExtraWide, drawIm_translate_apply, if_pos (by norm_num)]
      simp only [imgExtraWide]
      norm_num
    have hR : drawAlone imgWideConst 1280 720 1250 10 = 3 := by
      unfold drawAlone drawCov
      rw [coveredRect_imgWideConst, drawIm_idA_apply, if_pos (by norm_num)]
      simp only [imgWideConst, black]
      norm_num
    rw [hL, hR] at hval
    norm_num at hval
  · intro h
    have hval := h 10 700 (by norm_num) (by norm_num) (by norm_num) (by norm_num)
    have hL : transitionR TransitionKind.verticalSlide imgWideConst imgTall
        1280 720 0 10 700 = 5 := by
      simp only [transitionR, transitionBody, easeR_zero]
      unfold drawCov
      rw [coveredRect_imgTall, drawIm_translate_apply, if_pos (by norm_num)]
      simp only [imgTall]
      norm_num
    have hR : drawAlone imgWideConst 1280 720 10 700 = 3 := by
      unfold drawAlone drawCov
      rw [coveredRect_imgWideConst, drawIm_idA_apply, if_pos (by norm_num)]
      simp only [imgWideConst, black]
      norm_num
    rw [hL, hR] at hval
    norm_num at hval

end VideoCut
